import Mathlib

/-!
# Verification of the nexus LLM gateway core

Shallow embedding of the gateway's two core subsystems:

* the OpenAI provider adapter (`crates/llm/src/provider/openai.rs`):
  upstream error-status mapping, upstream request construction, and
  `extract_model_from_full_name`;
* the client-identification and token-bucket rate-limiting core
  (specified in `spec.md` §3–§4.6; the Rust sources for this part are
  not in the vendored tree, so those definitions are modelled from the
  spec and checked against the integration-test fixtures in
  `crates/integration-tests/tests/llm/token_limiting/edge_cases.rs`).

Machine integers are modelled as `Nat`; the `f64` bucket fill level is
modelled as `ℚ` (the spec's refill arithmetic is exact on rationals).
-/

namespace Nexus

/-! ## LLM provider errors (`crates/llm/src/error.rs`, variants used by `openai.rs`) -/

/-- The `LlmError` variants produced by the OpenAI provider adapter. -/
inductive LlmError where
  | AuthenticationFailed (message : String)
  | InsufficientQuota (message : String)
  | ModelNotFound (message : String)
  | RateLimitExceeded (message : String)
  | InvalidRequest (message : String)
  | InternalError (message : Option String)
  | ProviderApiError (status : Nat) (message : String)
  | ConnectionError (message : String)
  deriving DecidableEq, Repr

/-- `reqwest::StatusCode::is_success`: 2xx statuses. -/
def status_is_success (status : Nat) : Bool :=
  200 ≤ status && status < 300

/-- The error produced by `chat_completion` for a non-success upstream
status (`openai.rs` lines 118–129): the `match status.as_u16()` arms,
in source order. -/
def chat_completion_error_for_status (status : Nat) (error_text : String) : LlmError :=
  if status = 401 then .AuthenticationFailed error_text
  else if status = 403 then .InsufficientQuota error_text
  else if status = 404 then .ModelNotFound error_text
  else if status = 429 then .RateLimitExceeded error_text
  else if status = 400 then .InvalidRequest error_text
  else if status = 500 then .InternalError (some error_text)
  else .ProviderApiError status error_text

/-- The error produced by `chat_completion_stream` for a non-success
upstream status (`openai.rs` lines 198–209); the source duplicates the
match arm for arm. -/
def chat_completion_stream_error_for_status (status : Nat) (error_text : String) : LlmError :=
  if status = 401 then .AuthenticationFailed error_text
  else if status = 403 then .InsufficientQuota error_text
  else if status = 404 then .ModelNotFound error_text
  else if status = 429 then .RateLimitExceeded error_text
  else if status = 400 then .InvalidRequest error_text
  else if status = 500 then .InternalError (some error_text)
  else .ProviderApiError status error_text

/-- `chat_completion`'s status check (`openai.rs` lines 112–130): a
success status produces no error, a non-success status is mapped. -/
def chat_completion_handle_status (status : Nat) (error_text : String) : Option LlmError :=
  if status_is_success status then none
  else some (chat_completion_error_for_status status error_text)

/-- `chat_completion_stream`'s status check (`openai.rs` lines 191–210). -/
def chat_completion_stream_handle_status (status : Nat) (error_text : String) : Option LlmError :=
  if status_is_success status then none
  else some (chat_completion_stream_error_for_status status error_text)

/-! ## `extract_model_from_full_name` (`openai.rs` lines 267–269)

`full_name.split('/').next_back().unwrap_or(full_name)`: Rust's
`split('/')` on a char-separator, taking the last segment.  The split
of any string is non-empty, so the `unwrap_or` default is dead; it is
kept as the `getLastD` default for faithfulness. -/

/-- Rust's `str::split` with a single-`Char` separator, on the
character sequence of the string: `"a/b/".split('/') = ["a","b",""]`,
`"".split('/') = [""]`. -/
def split_char (sep : Char) : List Char → List (List Char)
  | [] => [[]]
  | c :: cs =>
    if c = sep then [] :: split_char sep cs
    else
      match split_char sep cs with
      | [] => [[c]]
      | seg :: rest => (c :: seg) :: rest

/-- `extract_model_from_full_name` (`openai.rs` lines 267–269). -/
def extract_model_from_full_name (full_name : String) : String :=
  String.mk ((split_char '/' full_name.data).getLastD full_name.data)

theorem split_char_ne_nil (sep : Char) (s : List Char) : split_char sep s ≠ [] := by
  cases s with
  | nil => simp [split_char]
  | cons c cs =>
    simp only [split_char]
    split
    · simp
    · split <;> simp

theorem split_char_of_not_mem (sep : Char) (s : List Char) (h : sep ∉ s) :
    split_char sep s = [s] := by
  induction s with
  | nil => rfl
  | cons c cs ih =>
    simp only [List.mem_cons, not_or] at h
    have hc : ¬ c = sep := fun hcs => h.1 hcs.symm
    simp only [split_char, if_neg hc, ih h.2]

theorem split_char_length_ge_two (sep : Char) (s : List Char) (h : sep ∈ s) :
    2 ≤ (split_char sep s).length := by
  induction s with
  | nil => cases h
  | cons c cs ih =>
    simp only [split_char]
    by_cases hc : c = sep
    · rw [if_pos hc]
      have := split_char_ne_nil sep cs
      have : 1 ≤ (split_char sep cs).length := by
        cases hcs : split_char sep cs with
        | nil => exact absurd hcs this
        | cons x xs => simp
      simpa using this
    · rw [if_neg hc]
      have hmem : sep ∈ cs := by
        rcases List.mem_cons.mp h with h1 | h2
        · exact absurd h1.symm hc
        · exact h2
      have h2 := ih hmem
      cases hcs : split_char sep cs with
      | nil => exact absurd hcs (split_char_ne_nil sep cs)
      | cons seg rest =>
        rw [hcs] at h2
        simpa using h2

/-- The last segment of `split_char sep s` is the suffix of `s` after
the last occurrence of `sep`: there is a prefix `pre` with
`s = pre ++ sep :: last`, and `last` contains no `sep`. -/
theorem split_char_getLast?_spec (sep : Char) (s : List Char) (h : sep ∈ s) :
    ∃ pre last, (split_char sep s).getLast? = some last ∧
      s = pre ++ sep :: last ∧ sep ∉ last := by
  induction s with
  | nil => cases h
  | cons c cs ih =>
    by_cases hc : c = sep
    · subst hc
      by_cases hmem : c ∈ cs
      · obtain ⟨pre, last, hlast, hdecomp, hnotin⟩ := ih hmem
        refine ⟨c :: pre, last, ?_, by simp [hdecomp], hnotin⟩
        simp only [split_char, eq_self_iff_true, if_true]
        cases hcs : split_char c cs with
        | nil => exact absurd hcs (split_char_ne_nil c cs)
        | cons x xs =>
          rw [hcs] at hlast
          rw [List.getLast?_cons_cons, hlast]
      · refine ⟨[], cs, ?_, by simp, hmem⟩
        simp only [split_char, eq_self_iff_true, if_true, split_char_of_not_mem c cs hmem]
        rfl
    · have hmem : sep ∈ cs := by
        rcases List.mem_cons.mp h with h1 | h2
        · exact absurd h1.symm hc
        · exact h2
      obtain ⟨pre, last, hlast, hdecomp, hnotin⟩ := ih hmem
      refine ⟨c :: pre, last, ?_, by simp [hdecomp], hnotin⟩
      simp only [split_char, if_neg hc]
      cases hcs : split_char sep cs with
      | nil => exact absurd hcs (split_char_ne_nil sep cs)
      | cons seg rest =>
        cases rest with
        | nil =>
          exfalso
          have := split_char_length_ge_two sep cs hmem
          rw [hcs] at this
          simp at this
        | cons y ys =>
          rw [hcs] at hlast
          rw [List.getLast?_cons_cons]
          rw [List.getLast?_cons_cons] at hlast
          exact hlast

/-! ## Upstream request construction (`openai.rs` lines 75–97 and 155–174) -/

/-- The inbound OpenAI-compatible request, as far as the provider
adapter inspects it: the routed model name and whatever `stream` flag
the client sent (`messages.rs`; only these two fields participate in
the claims below). -/
structure ChatCompletionRequest where
  model : String
  stream : Option Bool

/-- The request serialized to the upstream provider (`input/openai.rs`,
fields the adapter mutates after conversion). -/
structure OpenAIRequest where
  model : String
  stream : Bool
  deriving DecidableEq, Repr

/-- Modelled from the spec: the `OpenAIRequest::From<ChatCompletionRequest>`
conversion lives in `provider/openai/input.rs`, which is not in the
vendored tree.  It copies the inbound fields; the inbound `stream` flag
(absent meaning `false`) is carried over.  Both `chat_completion` and
`chat_completion_stream` overwrite `stream` unconditionally afterwards,
so the claims below do not depend on this choice. -/
def OpenAIRequest.fromChat (request : ChatCompletionRequest) : OpenAIRequest :=
  { model := request.model, stream := request.stream.getD false }

/-- `ModelManager` as the adapter uses it: `resolve_model` maps a
configured model name to the actual upstream model name. -/
structure ModelManager where
  resolve_model : String → Option String

/-- The upstream request built by `chat_completion` (`openai.rs` lines
82–96): resolve the model (error `ModelNotFound` when unconfigured),
convert, overwrite `model` with the resolved name and set
`stream = false` unconditionally. -/
def chat_completion_build (mm : ModelManager) (request : ChatCompletionRequest) :
    Except LlmError OpenAIRequest :=
  let model_name := extract_model_from_full_name request.model
  match mm.resolve_model model_name with
  | none =>
    .error (.ModelNotFound ("Model '" ++ model_name ++ "' is not configured"))
  | some actual_model =>
    let openai_request := OpenAIRequest.fromChat request
    .ok { openai_request with model := actual_model, stream := false }

/-- The upstream request built by `chat_completion_stream` (`openai.rs`
lines 162–174): same construction with `stream = true`. -/
def chat_completion_stream_build (mm : ModelManager) (request : ChatCompletionRequest) :
    Except LlmError OpenAIRequest :=
  let model_name := extract_model_from_full_name request.model
  match mm.resolve_model model_name with
  | none =>
    .error (.ModelNotFound ("Model '" ++ model_name ++ "' is not configured"))
  | some actual_model =>
    let openai_request := OpenAIRequest.fromChat request
    .ok { openai_request with model := actual_model, stream := true }

/-! ## Claims C1, C9, C10 -/

/-- C1 (as stated, refuted at 429): `chat_completion_handle_status`
maps the non-success status 429 to `RateLimitExceeded`, not to
`ProviderApiError 429` as the claim's catch-all clause demands. -/
theorem chat_completion_429_not_provider_api_error :
    status_is_success 429 = false ∧
    chat_completion_handle_status 429 "err" = some (.RateLimitExceeded "err") ∧
    chat_completion_handle_status 429 "err" ≠ some (.ProviderApiError 429 "err") ∧
    chat_completion_stream_handle_status 429 "err" = some (.RateLimitExceeded "err") := by
  refine ⟨rfl, rfl, ?_, rfl⟩
  simp [chat_completion_handle_status, chat_completion_error_for_status, status_is_success]

/-- C1 (amended): for every non-success upstream status, both
`chat_completion` and `chat_completion_stream` map 401 to
`AuthenticationFailed`, 403 to `InsufficientQuota`, 404 to
`ModelNotFound`, 429 to `RateLimitExceeded`, 400 to `InvalidRequest`,
500 to `InternalError`, and every other non-success status to
`ProviderApiError` carrying that numeric status. -/
theorem provider_error_status_mapping (status : Nat) (txt : String)
    (h : status_is_success status = false) :
    (status = 401 → chat_completion_handle_status status txt = some (.AuthenticationFailed txt)) ∧
    (status = 403 → chat_completion_handle_status status txt = some (.InsufficientQuota txt)) ∧
    (status = 404 → chat_completion_handle_status status txt = some (.ModelNotFound txt)) ∧
    (status = 429 → chat_completion_handle_status status txt = some (.RateLimitExceeded txt)) ∧
    (status = 400 → chat_completion_handle_status status txt = some (.InvalidRequest txt)) ∧
    (status = 500 → chat_completion_handle_status status txt = some (.InternalError (some txt))) ∧
    (status ∉ [401, 403, 404, 429, 400, 500] →
      chat_completion_handle_status status txt = some (.ProviderApiError status txt)) ∧
    chat_completion_stream_handle_status status txt = chat_completion_handle_status status txt := by
  refine ⟨?_, ?_, ?_, ?_, ?_, ?_, ?_, ?_⟩
  all_goals
    simp only [chat_completion_handle_status, chat_completion_stream_handle_status,
      chat_completion_error_for_status, chat_completion_stream_error_for_status, h,
      Bool.false_eq_true, if_false, List.mem_cons, List.mem_singleton, not_or]
  · rintro rfl; rfl
  · rintro rfl; rfl
  · rintro rfl; rfl
  · rintro rfl; rfl
  · rintro rfl; rfl
  · rintro rfl; rfl
  · rintro ⟨h1, h2, h3, h4, h5, h6, _⟩
    simp [h1, h2, h3, h4, h5, h6]

/-- Witness for `provider_error_status_mapping` at status 502. -/
theorem provider_error_status_mapping_witness :
    status_is_success 502 = false ∧
    chat_completion_handle_status 502 "bad gateway" =
      some (.ProviderApiError 502 "bad gateway") :=
  ⟨by decide, by
    have h := provider_error_status_mapping 502 "bad gateway" (by decide)
    exact h.2.2.2.2.2.2.1 (by decide)⟩

/-- C9: whatever `stream` flag the inbound request carries, the
upstream request built by `chat_completion` has `stream = false` and
the one built by `chat_completion_stream` has `stream = true`. -/
theorem upstream_stream_flag_forced :
    (∀ (mm : ModelManager) (request : ChatCompletionRequest) (out : OpenAIRequest),
      chat_completion_build mm request = .ok out → out.stream = false) ∧
    (∀ (mm : ModelManager) (request : ChatCompletionRequest) (out : OpenAIRequest),
      chat_completion_stream_build mm request = .ok out → out.stream = true) := by
  constructor
  all_goals
    intro mm request out h
    simp only [chat_completion_build, chat_completion_stream_build] at h
    cases hres : mm.resolve_model (extract_model_from_full_name request.model) <;>
      rw [hres] at h
    · cases h
    · cases h; rfl

/-- A concrete model manager configuring `gpt-4` (mirrors the
integration-test fixture `OpenAIMock::new("openai").with_models`). -/
def mmExample : ModelManager :=
  { resolve_model := fun name => if name = "gpt-4" then some "gpt-4" else none }

/-- A concrete inbound request asking for streaming. -/
def reqExample : ChatCompletionRequest :=
  { model := "openai/gpt-4", stream := some true }

/-- Witness for `upstream_stream_flag_forced`: the non-streaming builder
forces `stream = false` even though the inbound request asked for
streaming, and the streaming builder forces `stream = true`. -/
theorem upstream_stream_flag_forced_witness :
    ({ model := "gpt-4", stream := false } : OpenAIRequest).stream = false ∧
    ({ model := "gpt-4", stream := true } : OpenAIRequest).stream = true :=
  ⟨upstream_stream_flag_forced.1 mmExample reqExample _ rfl,
   upstream_stream_flag_forced.2 mmExample reqExample _ rfl⟩

/-- C10: for every string containing `'/'`,
`extract_model_from_full_name` returns exactly the suffix after the
last `'/'` (the returned suffix contains no `'/'` and the input
decomposes as `pre ++ "/" ++ suffix`); for every string containing no
`'/'`, it returns the string unchanged. -/
theorem extract_model_from_full_name_spec :
    (∀ s : String, '/' ∈ s.data →
      ∃ pre : List Char,
        s.data = pre ++ '/' :: (extract_model_from_full_name s).data ∧
        '/' ∉ (extract_model_from_full_name s).data) ∧
    (∀ s : String, '/' ∉ s.data → extract_model_from_full_name s = s) := by
  constructor
  · intro s h
    obtain ⟨pre, last, hlast, hdecomp, hnotin⟩ := split_char_getLast?_spec '/' s.data h
    have hx : (split_char '/' s.data).getLastD s.data = last := by
      rw [List.getLastD_eq_getLast?, hlast]
      rfl
    refine ⟨pre, ?_, ?_⟩
    · show s.data = pre ++ '/' :: (String.mk ((split_char '/' s.data).getLastD s.data)).data
      rw [hx]
      exact hdecomp
    · show '/' ∉ (String.mk ((split_char '/' s.data).getLastD s.data)).data
      rw [hx]
      exact hnotin
  · intro s h
    show String.mk ((split_char '/' s.data).getLastD s.data) = s
    rw [split_char_of_not_mem '/' s.data h]
    rfl

/-- Witness for `extract_model_from_full_name_spec` at
`"openai/gpt-4"` (contains `'/'`) and `"gpt-4"` (contains none). -/
theorem extract_model_from_full_name_spec_witness :
    ('/' ∈ ("openai/gpt-4" : String).data ∧
      ∃ pre : List Char,
        ("openai/gpt-4" : String).data =
          pre ++ '/' :: (extract_model_from_full_name "openai/gpt-4").data ∧
        '/' ∉ (extract_model_from_full_name "openai/gpt-4").data) ∧
    ('/' ∉ ("gpt-4" : String).data ∧ extract_model_from_full_name "gpt-4" = "gpt-4") :=
  ⟨⟨by decide, extract_model_from_full_name_spec.1 "openai/gpt-4" (by decide)⟩,
   ⟨by decide, extract_model_from_full_name_spec.2 "gpt-4" (by decide)⟩⟩

/-! ## The token-bucket counter store

Modelled from the spec: the `CounterStore` implementation is not in the
vendored tree; definitions follow spec.md §3 (BucketSpec, BucketState),
§4.4 (try_charge / refund / force_debit, lazy continuous refill) and §5
(out-of-order `now` values clamped to `max now last_refill`).  The
`f64` fill level is a rational; token amounts are `Nat` as in the
source (`u64`); instants are rationals in seconds. -/

/-- Bucket configuration: `capacity` tokens per rolling `interval`. -/
structure BucketSpec where
  capacity : ℕ
  interval : ℚ
  deriving DecidableEq, Repr

/-- Mutable bucket state: current fill and the instant of the last
lazy refill. -/
structure BucketState where
  remaining : ℚ
  last_refill : ℚ
  deriving DecidableEq, Repr

/-- Modelled from the spec (§4.4, §5): lazy refill on access.
`remaining := min (capacity, remaining + elapsed * capacity/interval)`,
then `last_refill := now`; an out-of-order `now` is clamped to
`max now last_refill`. -/
def refill (spec : BucketSpec) (st : BucketState) (now : ℚ) : BucketState :=
  let now := max now st.last_refill
  let elapsed := now - st.last_refill
  { remaining := min (spec.capacity : ℚ) (st.remaining + elapsed * ((spec.capacity : ℚ) / spec.interval)),
    last_refill := now }

/-- Modelled from the spec (§4.4): `try_charge` refills, then debits
`amount` iff `remaining ≥ amount`; partial charges are not permitted.
Returns the post-access state (the lazy refill happens even on denial)
and whether the charge was admitted. -/
def try_charge (spec : BucketSpec) (st : BucketState) (amount : ℕ) (now : ℚ) :
    BucketState × Bool :=
  let st := refill spec st now
  if (amount : ℚ) ≤ st.remaining then
    ({ st with remaining := st.remaining - (amount : ℚ) }, true)
  else
    (st, false)

/-- Modelled from the spec (§4.4): `refund` never fails; clamps at
capacity. -/
def refund (spec : BucketSpec) (st : BucketState) (amount : ℕ) (now : ℚ) : BucketState :=
  let st := refill spec st now
  { st with remaining := min (spec.capacity : ℚ) (st.remaining + (amount : ℚ)) }

/-- Modelled from the spec (§4.4): `force_debit` for post-hoc over-use;
clamps at zero. -/
def force_debit (spec : BucketSpec) (st : BucketState) (amount : ℕ) (now : ℚ) : BucketState :=
  let st := refill spec st now
  { st with remaining := max 0 (st.remaining - (amount : ℚ)) }

/-- The bucket-state invariant of spec.md §3: `0 ≤ remaining ≤ capacity`. -/
def BucketInv (spec : BucketSpec) (st : BucketState) : Prop :=
  0 ≤ st.remaining ∧ st.remaining ≤ (spec.capacity : ℚ)

/-- One store operation on a bucket, with its wall-clock instant. -/
inductive BucketOp where
  | charge (amount : ℕ) (now : ℚ)
  | refund (amount : ℕ) (now : ℚ)
  | force_debit (amount : ℕ) (now : ℚ)
  | refill (now : ℚ)
  deriving Repr

/-- Apply one operation to a bucket (a denied charge still performs
the lazy refill of the access). -/
def applyOp (spec : BucketSpec) (st : BucketState) : BucketOp → BucketState
  | .charge amount now => (try_charge spec st amount now).1
  | .refund amount now => refund spec st amount now
  | .force_debit amount now => force_debit spec st amount now
  | .refill now => refill spec st now

/-- Apply a sequence of operations in order. -/
def applyOps (spec : BucketSpec) (st : BucketState) (ops : List BucketOp) : BucketState :=
  ops.foldl (applyOp spec) st

theorem refill_inv (spec : BucketSpec) (st : BucketState) (now : ℚ)
    (hint : 0 < spec.interval) (hinv : BucketInv spec st) :
    BucketInv spec (refill spec st now) := by
  obtain ⟨h0, hc⟩ := hinv
  constructor
  · simp only [refill, le_min_iff]
    refine ⟨by positivity, ?_⟩
    have helapsed : 0 ≤ max now st.last_refill - st.last_refill := by
      simp [le_max_right]
    have hrate : 0 ≤ (spec.capacity : ℚ) / spec.interval := by positivity
    have := mul_nonneg helapsed hrate
    linarith
  · simp [refill, min_le_left]

theorem refill_last_refill_mono (spec : BucketSpec) (st : BucketState) (now : ℚ) :
    st.last_refill ≤ (refill spec st now).last_refill := by
  simp [refill, le_max_right]

theorem try_charge_inv (spec : BucketSpec) (st : BucketState) (amount : ℕ) (now : ℚ)
    (hint : 0 < spec.interval) (hinv : BucketInv spec st) :
    BucketInv spec (try_charge spec st amount now).1 := by
  have h := refill_inv spec st now hint hinv
  obtain ⟨h0, hc⟩ := h
  simp only [try_charge]
  split
  · constructor
    · simpa using by linarith [‹((amount : ℚ)) ≤ (refill spec st now).remaining›]
    · show (refill spec st now).remaining - (amount : ℚ) ≤ (spec.capacity : ℚ)
      have : (0 : ℚ) ≤ (amount : ℚ) := by positivity
      linarith
  · exact ⟨h0, hc⟩

theorem try_charge_last_refill_mono (spec : BucketSpec) (st : BucketState)
    (amount : ℕ) (now : ℚ) :
    st.last_refill ≤ (try_charge spec st amount now).1.last_refill := by
  simp only [try_charge]
  split <;> simpa using refill_last_refill_mono spec st now

theorem refund_inv (spec : BucketSpec) (st : BucketState) (amount : ℕ) (now : ℚ)
    (hint : 0 < spec.interval) (hinv : BucketInv spec st) :
    BucketInv spec (refund spec st amount now) := by
  have h := refill_inv spec st now hint hinv
  obtain ⟨h0, hc⟩ := h
  constructor
  · simp only [refund, le_min_iff]
    refine ⟨by positivity, by positivity⟩
  · simp [refund, min_le_left]

theorem refund_last_refill_mono (spec : BucketSpec) (st : BucketState)
    (amount : ℕ) (now : ℚ) :
    st.last_refill ≤ (refund spec st amount now).last_refill := by
  simpa [refund] using refill_last_refill_mono spec st now

theorem force_debit_inv (spec : BucketSpec) (st : BucketState) (amount : ℕ) (now : ℚ)
    (hint : 0 < spec.interval) (hinv : BucketInv spec st) :
    BucketInv spec (force_debit spec st amount now) := by
  have h := refill_inv spec st now hint hinv
  obtain ⟨h0, hc⟩ := h
  constructor
  · simp [force_debit, le_max_left]
  · simp only [force_debit, max_le_iff]
    refine ⟨by positivity, ?_⟩
    have : (0 : ℚ) ≤ (amount : ℚ) := by positivity
    linarith

theorem force_debit_last_refill_mono (spec : BucketSpec) (st : BucketState)
    (amount : ℕ) (now : ℚ) :
    st.last_refill ≤ (force_debit spec st amount now).last_refill := by
  simpa [force_debit] using refill_last_refill_mono spec st now

theorem applyOp_inv (spec : BucketSpec) (st : BucketState) (op : BucketOp)
    (hint : 0 < spec.interval) (hinv : BucketInv spec st) :
    BucketInv spec (applyOp spec st op) := by
  cases op with
  | charge amount now => exact try_charge_inv spec st amount now hint hinv
  | refund amount now => exact refund_inv spec st amount now hint hinv
  | force_debit amount now => exact force_debit_inv spec st amount now hint hinv
  | refill now => exact refill_inv spec st now hint hinv

theorem applyOp_last_refill_mono (spec : BucketSpec) (st : BucketState) (op : BucketOp) :
    st.last_refill ≤ (applyOp spec st op).last_refill := by
  cases op with
  | charge amount now => exact try_charge_last_refill_mono spec st amount now
  | refund amount now => exact refund_last_refill_mono spec st amount now
  | force_debit amount now => exact force_debit_last_refill_mono spec st amount now
  | refill now => exact refill_last_refill_mono spec st now

/-- C3: for every bucket and every sequence of charge, refund,
force-debit and refill operations, after every operation (i.e. after
every prefix of the sequence) the state satisfies
`0 ≤ remaining ≤ capacity`, and `last_refill` never decreases. -/
theorem bucket_sequence_invariant (spec : BucketSpec) (st : BucketState)
    (ops : List BucketOp) (hint : 0 < spec.interval) (hinv : BucketInv spec st) :
    BucketInv spec (applyOps spec st ops) ∧
    st.last_refill ≤ (applyOps spec st ops).last_refill := by
  induction ops generalizing st with
  | nil => exact ⟨hinv, le_refl _⟩
  | cons op rest ih =>
    have hstep := applyOp_inv spec st op hint hinv
    have hmono := applyOp_last_refill_mono spec st op
    obtain ⟨hinv2, hmono2⟩ := ih (applyOp spec st op) hstep
    exact ⟨hinv2, le_trans hmono hmono2⟩

/-- Witness for `bucket_sequence_invariant`: capacity 50 over 60 s,
full bucket, a charge of 8 at t = 0 followed by a refund of 3 at
t = 30 and a force-debit of 100 at t = 10 (out of order). -/
theorem bucket_sequence_invariant_witness :
    BucketInv ⟨50, 60⟩
      (applyOps ⟨50, 60⟩ ⟨50, 0⟩ [.charge 8 0, .refund 3 30, .force_debit 100 10]) ∧
    (0 : ℚ) ≤ (applyOps ⟨50, 60⟩ ⟨50, 0⟩
      [.charge 8 0, .refund 3 30, .force_debit 100 10]).last_refill :=
  bucket_sequence_invariant ⟨50, 60⟩ ⟨50, 0⟩
    [.charge 8 0, .refund 3 30, .force_debit 100 10] (by norm_num) (by norm_num [BucketInv])

/-! ## Multi-bucket transactional charge

Modelled from the spec (§4.4): when `RateLimitPolicy` returns several
buckets, the store attempts each debit in order and rolls back the
preceding debits on the first failure (all-or-nothing). -/

/-- Modelled from the spec (§4.4): charge `amount` against every bucket
in the list at instant `now`; on the first denial, roll back the debits
already made (by refunding them) and report failure.  Returns the store
after the whole operation and whether the charge was admitted. -/
def try_charge_all (amount : ℕ) (now : ℚ) :
    List (BucketSpec × BucketState) → List (BucketSpec × BucketState) × Bool
  | [] => ([], true)
  | (spec, st) :: rest =>
    let res := try_charge spec st amount now
    if res.2 then
      let resRest := try_charge_all amount now rest
      if resRest.2 then ((spec, res.1) :: resRest.1, true)
      else ((spec, refund spec res.1 amount now) :: resRest.1, false)
    else ((spec, res.1) :: rest, false)

/-- A refill at the very instant of the last refill does not change a
well-formed bucket. -/
theorem refill_now_eq (spec : BucketSpec) (st : BucketState) (now : ℚ)
    (hnow : st.last_refill = now) (hc : st.remaining ≤ (spec.capacity : ℚ)) :
    refill spec st now = st := by
  have hmax : max now st.last_refill = st.last_refill := by
    simp [hnow]
  simp only [refill, hmax, sub_self, zero_mul, add_zero, min_eq_right hc]

/-- C4: the multi-bucket charge is all-or-nothing.  For a store whose
buckets are well-formed and up to date at `now` (so the result is not
clouded by the lazy refill the access performs), a denied
`try_charge_all` leaves every bucket exactly as it was — in particular
a sufficient bucket's `remaining` is unchanged when another required
bucket denies. -/
theorem try_charge_all_atomic (amount : ℕ) (now : ℚ)
    (buckets : List (BucketSpec × BucketState))
    (hwf : ∀ b ∈ buckets, b.2.last_refill = now ∧ BucketInv b.1 b.2)
    (hdenied : (try_charge_all amount now buckets).2 = false) :
    (try_charge_all amount now buckets).1 = buckets := by
  induction buckets with
  | nil => simp [try_charge_all] at hdenied
  | cons b rest ih =>
    obtain ⟨spec, st⟩ := b
    obtain ⟨hnow, hinv0, hinvc⟩ := hwf (spec, st) (List.mem_cons_self _ _)
    have hwfrest : ∀ b ∈ rest, b.2.last_refill = now ∧ BucketInv b.1 b.2 :=
      fun b hb => hwf b (List.mem_cons_of_mem _ hb)
    have hrefill : refill spec st now = st := refill_now_eq spec st now hnow hinvc
    by_cases hok : (amount : ℚ) ≤ st.remaining
    · have hcharge : try_charge spec st amount now =
          ({ remaining := st.remaining - (amount : ℚ), last_refill := st.last_refill }, true) := by
        simp only [try_charge, hrefill, if_pos hok]
      rcases hres : try_charge_all amount now rest with ⟨rest2, okRest⟩
      cases okRest with
      | true =>
        simp only [try_charge_all, hcharge, hres] at hdenied
        simp at hdenied
      | false =>
        have hrest2 : rest2 = rest := by
          have h2 : (try_charge_all amount now rest).2 = false := by rw [hres]
          have h3 := ih hwfrest h2
          rw [hres] at h3
          exact h3
        simp only [try_charge_all, hcharge, hres, if_true, Bool.false_eq_true, if_false]
        simp only [List.cons.injEq, Prod.mk.injEq]
        refine ⟨⟨trivial, ?_⟩, hrest2⟩
        have h0 : (0 : ℚ) ≤ (amount : ℚ) := by positivity
        have hsub : st.remaining - (amount : ℚ) ≤ (spec.capacity : ℚ) := by linarith
        have hrefill2 : refill spec
            { remaining := st.remaining - (amount : ℚ), last_refill := st.last_refill } now =
            { remaining := st.remaining - (amount : ℚ), last_refill := st.last_refill } :=
          refill_now_eq spec _ now hnow hsub
        simp only [refund, hrefill2]
        rw [sub_add_cancel, min_eq_right hinvc]
    · have hcharge : try_charge spec st amount now = (st, false) := by
        simp only [try_charge, hrefill, if_neg hok]
      simp [try_charge_all, hcharge]

/-- Witness for `try_charge_all_atomic`: a per-user bucket with 40
remaining (enough for the 8-token charge) and a per-group bucket with
5 remaining (not enough); the denied charge leaves both untouched. -/
theorem try_charge_all_atomic_witness :
    (try_charge_all 8 0 [(⟨50, 60⟩, ⟨40, 0⟩), (⟨100, 60⟩, ⟨5, 0⟩)]).2 = false ∧
    (try_charge_all 8 0 [(⟨50, 60⟩, ⟨40, 0⟩), (⟨100, 60⟩, ⟨5, 0⟩)]).1 =
      [(⟨50, 60⟩, ⟨40, 0⟩), (⟨100, 60⟩, ⟨5, 0⟩)] := by
  have hdenied : (try_charge_all 8 0
      [((⟨50, 60⟩ : BucketSpec), (⟨40, 0⟩ : BucketState)),
       (⟨100, 60⟩, ⟨5, 0⟩)]).2 = false := by
    norm_num [try_charge_all, try_charge, refill]
  refine ⟨hdenied, try_charge_all_atomic 8 0 _ ?_ hdenied⟩
  intro b hb
  simp only [List.mem_cons, List.mem_singleton] at hb
  rcases hb with rfl | rfl | h
  · exact ⟨rfl, by norm_num [BucketInv]⟩
  · exact ⟨rfl, by norm_num [BucketInv]⟩
  · cases h

/-! ## Charge reconciliation

Modelled from the spec (§3, §4.3): a `Charge` records the pre-charged
estimate; `reconcile` adjusts the bucket by `actual − estimated` once
the provider's `UsageReport` arrives. -/

/-- The handle returned by a successful pre-charge (spec.md §3); only
the charged amount participates in reconciliation. -/
structure Charge where
  amount_charged : ℕ
  deriving DecidableEq, Repr

/-- Provider-reported usage (spec.md §3); only `input_tokens`
participates in limiting. -/
structure UsageReport where
  input_tokens : ℕ
  output_tokens : ℕ
  deriving DecidableEq, Repr

/-- Modelled from the spec (§4.3): reconcile a charge against the
provider's usage report.  If actual < estimated the delta is refunded
(capped at capacity); if actual > estimated the delta is additionally
debited via `force_debit` (clamped at zero); reconciliation is total —
it always yields a bucket state and never fails the served response. -/
def reconcile (spec : BucketSpec) (st : BucketState) (charge : Charge)
    (report : UsageReport) (now : ℚ) : BucketState :=
  if report.input_tokens < charge.amount_charged then
    refund spec st (charge.amount_charged - report.input_tokens) now
  else if charge.amount_charged < report.input_tokens then
    force_debit spec st (report.input_tokens - charge.amount_charged) now
  else
    st

/-- C5: reconciling an issued charge against a usage report on an
up-to-date, well-formed bucket refunds `estimated − actual` capped at
capacity when the provider used less than estimated, additionally
debits `actual − estimated` clamped at zero when it used more, and in
every case yields a valid bucket state (`0 ≤ remaining ≤ capacity`) —
reconciliation never fails. -/
theorem reconcile_spec (spec : BucketSpec) (st : BucketState) (charge : Charge)
    (report : UsageReport) (now : ℚ)
    (hint : 0 < spec.interval) (hnow : st.last_refill = now) (hinv : BucketInv spec st) :
    (report.input_tokens < charge.amount_charged →
      (reconcile spec st charge report now).remaining =
        min (spec.capacity : ℚ)
          (st.remaining + ((charge.amount_charged - report.input_tokens : ℕ) : ℚ))) ∧
    (charge.amount_charged < report.input_tokens →
      (reconcile spec st charge report now).remaining =
        max 0 (st.remaining - ((report.input_tokens - charge.amount_charged : ℕ) : ℚ))) ∧
    BucketInv spec (reconcile spec st charge report now) := by
  have hrefill : refill spec st now = st := refill_now_eq spec st now hnow hinv.2
  refine ⟨?_, ?_, ?_⟩
  · intro hlt
    simp only [reconcile, if_pos hlt, refund, hrefill]
  · intro hgt
    have hnlt : ¬ report.input_tokens < charge.amount_charged := by omega
    simp only [reconcile, if_neg hnlt, if_pos hgt, force_debit, hrefill]
  · simp only [reconcile]
    split
    · exact refund_inv spec st _ now hint hinv
    · split
      · exact force_debit_inv spec st _ now hint hinv
      · exact hinv

/-- Witness for `reconcile_spec`: capacity 50/60 s, bucket at 42 after
an 8-token pre-charge; the under-use case (actual 3 of 8 estimated)
refunds 5, and the over-use case (actual 100 of 8 estimated) clamps at
zero. -/
theorem reconcile_spec_witness :
    (reconcile ⟨50, 60⟩ ⟨42, 0⟩ ⟨8⟩ ⟨3, 0⟩ 0).remaining =
      min ((50 : ℕ) : ℚ) ((42 : ℚ) + ((8 - 3 : ℕ) : ℚ)) ∧
    (reconcile ⟨50, 60⟩ ⟨42, 0⟩ ⟨8⟩ ⟨100, 0⟩ 0).remaining =
      max 0 ((42 : ℚ) - ((100 - 8 : ℕ) : ℚ)) ∧
    BucketInv ⟨50, 60⟩ (reconcile ⟨50, 60⟩ ⟨42, 0⟩ ⟨8⟩ ⟨100, 0⟩ 0) :=
  ⟨(reconcile_spec ⟨50, 60⟩ ⟨42, 0⟩ ⟨8⟩ ⟨3, 0⟩ 0 (by norm_num) rfl
      (by norm_num [BucketInv])).1 (by norm_num),
   (reconcile_spec ⟨50, 60⟩ ⟨42, 0⟩ ⟨8⟩ ⟨100, 0⟩ 0 (by norm_num) rfl
      (by norm_num [BucketInv])).2.1 (by norm_num),
   (reconcile_spec ⟨50, 60⟩ ⟨42, 0⟩ ⟨8⟩ ⟨100, 0⟩ 0 (by norm_num) rfl
      (by norm_num [BucketInv])).2.2⟩

/-! ## Client identification

Modelled from the spec (§4.1, §4.6): the `IdentityExtractor` sources
are not in the vendored tree; definitions follow the configuration
grammar and contracts of §4.1 and are checked against the
integration-test fixtures (`edge_cases.rs`). -/

/-- A configured identity source (`http_header` / `jwt_claim` /
`query_param`, each naming a key). -/
inductive IdSource where
  | http_header (name : String)
  | jwt_claim (name : String)
  | query_param (name : String)
  deriving DecidableEq, Repr

/-- The request metadata the extractor consults: header, query and JWT
key/value pairs. -/
structure RequestMeta where
  headers : List (String × String)
  query_params : List (String × String)
  jwt_claims : List (String × String)

/-- The `server.client_identification` configuration (spec.md §4.1,
§6). -/
structure ClientIdentificationConfig where
  enabled : Bool
  client_id_source : IdSource
  group_id_source : Option IdSource
  group_values : Option (List String)

/-- An extracted identity (spec.md §3). -/
structure Identity where
  client_id : String
  group_id : Option String
  deriving DecidableEq, Repr

/-- The typed identity failures (spec.md §4.1, §7). -/
inductive IdentityError where
  | MissingClientId
  | InvalidGroup
  deriving DecidableEq, Repr

/-- Read the configured source out of the request metadata. -/
def lookup_source (meta : RequestMeta) : IdSource → Option String
  | .http_header name => meta.headers.lookup name
  | .jwt_claim name => meta.jwt_claims.lookup name
  | .query_param name => meta.query_params.lookup name

/-- Modelled from the spec (§4.1): `extract`.  When identification is
disabled no identity is produced (`ok none`).  When enabled: a missing
client-id value fails with `MissingClientId`; an absent group is not an
error; a present group is validated against the allow-list when one is
configured, failing with `InvalidGroup` on a miss.  The extracted
strings are passed through verbatim — no trim, no case fold. -/
def extract (meta : RequestMeta) (config : ClientIdentificationConfig) :
    Except IdentityError (Option Identity) :=
  if config.enabled then
    match lookup_source meta config.client_id_source with
    | none => .error .MissingClientId
    | some client_id =>
      match config.group_id_source with
      | none => .ok (some { client_id := client_id, group_id := none })
      | some gsrc =>
        match lookup_source meta gsrc with
        | none => .ok (some { client_id := client_id, group_id := none })
        | some g =>
          match config.group_values with
          | none => .ok (some { client_id := client_id, group_id := some g })
          | some allowed =>
            if g ∈ allowed then .ok (some { client_id := client_id, group_id := some g })
            else .error .InvalidGroup
  else .ok none

/-- Modelled from the spec (§4.6 shape 1): the ErrorMapper rendering of
admission (identity) failures as HTTP status and response body. -/
def render_identity_error : IdentityError → Nat × String
  | .MissingClientId =>
    (400, "\x7b\"error\":\"missing_client_id\",\"error_description\":\"Client identification is required\"\x7d")
  | .InvalidGroup =>
    (400, "\x7b\"error\":\"invalid_group\",\"error_description\":\"The specified group is not valid\"\x7d")

/-- C6: when identification is enabled and the configured client-id
source yields no value, extraction fails with `MissingClientId`,
rendered as HTTP 400 with the exact body asserted by
`missing_client_id_error_format` in `edge_cases.rs`. -/
theorem extract_missing_client_id (meta : RequestMeta) (config : ClientIdentificationConfig)
    (henabled : config.enabled = true)
    (hmissing : lookup_source meta config.client_id_source = none) :
    extract meta config = .error .MissingClientId ∧
    render_identity_error .MissingClientId =
      (400, "\x7b\"error\":\"missing_client_id\",\"error_description\":\"Client identification is required\"\x7d") := by
  refine ⟨?_, rfl⟩
  simp only [extract, henabled, if_true, hmissing]

/-- The test fixture configuration of `missing_client_id_error_format`:
identification enabled, client id from the `X-Client-Id` header. -/
def cfgClientIdOnly : ClientIdentificationConfig :=
  { enabled := true
    client_id_source := .http_header "X-Client-Id"
    group_id_source := none
    group_values := none }

/-- A request carrying no metadata at all. -/
def metaEmpty : RequestMeta :=
  { headers := [], query_params := [], jwt_claims := [] }

/-- Witness for `extract_missing_client_id`: the fixture configuration
and a request without the `X-Client-Id` header. -/
theorem extract_missing_client_id_witness :
    extract metaEmpty cfgClientIdOnly = .error .MissingClientId ∧
    render_identity_error .MissingClientId =
      (400, "\x7b\"error\":\"missing_client_id\",\"error_description\":\"Client identification is required\"\x7d") :=
  extract_missing_client_id metaEmpty cfgClientIdOnly rfl rfl

/-- C7: when a group source is configured, the request carries a group
value, and the configured allow-list does not contain it, extraction
fails with `InvalidGroup`, rendered as HTTP 400 with the exact body
asserted by `unauthorized_group_error_format` in `edge_cases.rs`. -/
theorem extract_invalid_group (meta : RequestMeta) (config : ClientIdentificationConfig)
    (client_id g : String) (gsrc : IdSource) (allowed : List String)
    (henabled : config.enabled = true)
    (hcid : lookup_source meta config.client_id_source = some client_id)
    (hgsrc : config.group_id_source = some gsrc)
    (hg : lookup_source meta gsrc = some g)
    (hallow : config.group_values = some allowed)
    (hnotmem : g ∉ allowed) :
    extract meta config = .error .InvalidGroup ∧
    render_identity_error .InvalidGroup =
      (400, "\x7b\"error\":\"invalid_group\",\"error_description\":\"The specified group is not valid\"\x7d") := by
  refine ⟨?_, rfl⟩
  simp only [extract, henabled, if_true, hcid, hgsrc, hg, hallow, if_neg hnotmem]

/-- The test fixture configuration of `unauthorized_group_error_format`:
group from `X-Group`, allow-list `["basic", "premium"]`. -/
def cfgGroupAllowList : ClientIdentificationConfig :=
  { enabled := true
    client_id_source := .http_header "X-Client-Id"
    group_id_source := some (.http_header "X-Group")
    group_values := some ["basic", "premium"] }

/-- The test request of `unauthorized_group_error_format`:
`X-Client-Id: test-client`, `X-Group: enterprise`. -/
def metaEnterpriseGroup : RequestMeta :=
  { headers := [("X-Client-Id", "test-client"), ("X-Group", "enterprise")]
    query_params := []
    jwt_claims := [] }

/-- Witness for `extract_invalid_group`: group `enterprise` against
allow-list `["basic", "premium"]`. -/
theorem extract_invalid_group_witness :
    extract metaEnterpriseGroup cfgGroupAllowList = .error .InvalidGroup ∧
    render_identity_error .InvalidGroup =
      (400, "\x7b\"error\":\"invalid_group\",\"error_description\":\"The specified group is not valid\"\x7d") :=
  extract_invalid_group metaEnterpriseGroup cfgGroupAllowList
    "test-client" "enterprise" (.http_header "X-Group") ["basic", "premium"]
    rfl rfl rfl rfl rfl (by decide)

/-- C8: no normalization of the client id.  Whenever the configured
source yields a value — any value, including empty, whitespace-only,
special-character and long strings — extraction succeeds and the
resulting `Identity.client_id` is byte-identical to the extracted
value. -/
theorem extract_no_normalization (meta : RequestMeta) (config : ClientIdentificationConfig)
    (client_id : String)
    (henabled : config.enabled = true)
    (hcid : lookup_source meta config.client_id_source = some client_id)
    (hnogroup : config.group_id_source = none) :
    extract meta config = .ok (some { client_id := client_id, group_id := none }) := by
  simp only [extract, henabled, if_true, hcid, hnogroup]

/-- A request whose `X-Client-Id` header carries the given value. -/
def metaWithClientId (value : String) : RequestMeta :=
  { headers := [("X-Client-Id", value)], query_params := [], jwt_claims := [] }

/-- Witness for `extract_no_normalization`: the four P6 inputs — the
empty string, a whitespace-only string, a special-character string and
a 256-byte string — are each returned byte-identically. -/
theorem extract_no_normalization_witness :
    extract (metaWithClientId "") cfgClientIdOnly =
      .ok (some { client_id := "", group_id := none }) ∧
    extract (metaWithClientId "   ") cfgClientIdOnly =
      .ok (some { client_id := "   ", group_id := none }) ∧
    extract (metaWithClientId "user@example.com:123-456_789/test") cfgClientIdOnly =
      .ok (some { client_id := "user@example.com:123-456_789/test", group_id := none }) ∧
    extract (metaWithClientId (String.mk (List.replicate 256 'a'))) cfgClientIdOnly =
      .ok (some { client_id := String.mk (List.replicate 256 'a'), group_id := none }) :=
  ⟨extract_no_normalization _ cfgClientIdOnly "" rfl rfl rfl,
   extract_no_normalization _ cfgClientIdOnly "   " rfl rfl rfl,
   extract_no_normalization _ cfgClientIdOnly "user@example.com:123-456_789/test" rfl rfl rfl,
   extract_no_normalization _ cfgClientIdOnly (String.mk (List.replicate 256 'a')) rfl
     (by simp [lookup_source, metaWithClientId, cfgClientIdOnly, List.lookup]) rfl⟩

/-! ## Token exhaustion scenario (spec.md §8 scenario 4,
`rate_limit_exceeded_response_format` in `edge_cases.rs`) -/

/-- Modelled from the spec (§4.6 shape 2): the ErrorMapper rendering of
a rate-limit denial on the OpenAI-compatible surface: HTTP 429 and the
error envelope asserted by `rate_limit_exceeded_response_format`. -/
def render_rate_limited : Nat × String :=
  (429, "\x7b\"error\":\x7b\"message\":\"Rate limit exceeded: Token rate limit exceeded. Please try again later.\",\"type\":\"rate_limit_error\",\"code\":429\x7d\x7d")

/-- Run `n` sequential charges of `amount` tokens at instant `now`,
stopping at the first denial. -/
def sequential_charges (spec : BucketSpec) (amount : ℕ) (now : ℚ) :
    ℕ → BucketState → BucketState × Bool
  | 0, st => (st, true)
  | n + 1, st =>
    let res := try_charge spec st amount now
    if res.2 then sequential_charges spec amount now n res.1 else (res.1, false)

/-- The per-user bucket of the fixture: 50 input tokens per 60 s. -/
def exhaustionSpec : BucketSpec := ⟨50, 60⟩

/-- C2: with a per-user limit of 50 tokens per 60 s, six sequential
8-token charges are all admitted, leaving `remaining = 2` (48 tokens
charged); the seventh 8-token charge is denied, and the denial renders
as HTTP 429 with the exact body asserted by
`rate_limit_exceeded_response_format`. -/
theorem token_exhaustion_scenario :
    sequential_charges exhaustionSpec 8 0 6 ⟨50, 0⟩ = (⟨2, 0⟩, true) ∧
    (try_charge exhaustionSpec ⟨2, 0⟩ 8 0).2 = false ∧
    render_rate_limited =
      (429, "\x7b\"error\":\x7b\"message\":\"Rate limit exceeded: Token rate limit exceeded. Please try again later.\",\"type\":\"rate_limit_error\",\"code\":429\x7d\x7d") := by
  refine ⟨?_, ?_, rfl⟩
  · norm_num [sequential_charges, try_charge, refill, exhaustionSpec]
  · norm_num [try_charge, refill, exhaustionSpec]

end Nexus
